import Mathlib

/-!
Verification of the event-aggregator core: the persistent dedup ledger
(`src/dedup_store.py`, class `DedupStore`) and the ingestion pipeline
(`src/processor.py`, class `EventProcessor`), shallowly embedded.

Modelling conventions:
* The SQLite file system is a `Disk`: an association list from database path
  to the rows of the `processed_events` table stored in the file at that path.
* An `aiosqlite` connection is reduced to the one bit the code observes:
  whether it is still running.  `Connection.close` on an already-closed
  connection returns without error (current aiosqlite behaviour), while
  `execute` on a closed connection raises `ValueError("Connection closed")`,
  modelled as `PyError.connectionClosed`.
* Timestamps travel as their ISO-8601 strings, so `datetime.isoformat()` is
  the identity here; event payloads are inert string maps.
* Fallible Python methods return `Except PyError _`; a raised exception is
  the `.error` case.
-/

/-- One row of the `processed_events` table:
`(topic TEXT, event_id TEXT, first_seen_at TEXT, PRIMARY KEY (topic, event_id))`
(`src/dedup_store.py`, `DedupStore.initialize`, lines 29-36). -/
structure DedupRecord where
  topic : String
  event_id : String
  first_seen_at : String
deriving DecidableEq

/-- The exceptions the ledger code can raise:
`RuntimeError("DedupStore not initialized")` from the `if not self.db` guards,
and aiosqlite's `ValueError("Connection closed")` when a method is invoked on
a connection whose handle has been closed. -/
inductive PyError where
  | runtimeNotInitialized
  | connectionClosed
deriving DecidableEq

/-- An `aiosqlite.Connection`, reduced to whether it is still open.
`running = false` models a connection whose `close()` has completed. -/
structure Connection where
  running : Bool
deriving DecidableEq

/-- `aiosqlite.Connection.close()`: stops the connection; calling it on an
already-closed connection returns immediately.  It does not raise. -/
def Connection.aclose (_c : Connection) : Except PyError Connection :=
  Except.ok { running := false }

/-- The durable world: the contents of the SQLite file at each database path. -/
abbrev Disk := List (String × List DedupRecord)

/-- The rows of the `processed_events` table in the file at path `p`
(an absent file reads as an empty table, as `CREATE TABLE IF NOT EXISTS`
would create it). -/
def Disk.table : Disk → String → List DedupRecord
  | [], _ => []
  | (q, tbl) :: rest, p => if q = p then tbl else Disk.table rest p

/-- Whether a database file already exists at path `p`. -/
def Disk.hasTable : Disk → String → Bool
  | [], _ => false
  | (q, _) :: rest, p => q == p || Disk.hasTable rest p

/-- Overwrite (or create) the table stored at path `p`. -/
def Disk.setTable : Disk → String → List DedupRecord → Disk
  | [], p, tbl => [(p, tbl)]
  | (q, t0) :: rest, p, tbl =>
    if q = p then (p, tbl) :: rest else (q, t0) :: Disk.setTable rest p tbl

/-- `CREATE TABLE IF NOT EXISTS processed_events ...`: creates an empty table
at `p` when the file does not exist yet, and leaves an existing one intact. -/
def Disk.ensureTable (d : Disk) (p : String) : Disk :=
  if Disk.hasTable d p then d else Disk.setTable d p []

/-- The SQL existence test
`SELECT 1 FROM processed_events WHERE topic = ? AND event_id = ?`:
does the table hold a row with this `(topic, event_id)` key? -/
def hasKey (tbl : List DedupRecord) (t e : String) : Bool :=
  tbl.any fun r => r.topic == t && r.event_id == e

/-- The class `DedupStore` (`src/dedup_store.py`): a database path fixed at
construction and an optional connection, `None` until `initialize()`. -/
structure DedupStore where
  db_path : String
  db : Option Connection
deriving DecidableEq

/-- `DedupStore.initialize` (`src/dedup_store.py`, lines 23-42): ensures the
backing file and the `processed_events` schema exist and opens a fresh
connection handle.  (`Path(...).parent.mkdir` has no observable effect here.) -/
def DedupStore.initializeStore (s : DedupStore) (disk : Disk) : DedupStore × Disk :=
  ({ db_path := s.db_path, db := some { running := true } },
   Disk.ensureTable disk s.db_path)

/-- `DedupStore.is_duplicate` (lines 44-57): guard `if not self.db` raises the
uninitialized-state error; a closed connection makes `execute` raise; otherwise
the `SELECT 1 ... WHERE topic = ? AND event_id = ?` existence check runs. -/
def DedupStore.is_duplicate (s : DedupStore) (disk : Disk) (t e : String) :
    Except PyError Bool :=
  match s.db with
  | none => Except.error PyError.runtimeNotInitialized
  | some c =>
    if c.running then
      Except.ok (hasKey (Disk.table disk s.db_path) t e)
    else Except.error PyError.connectionClosed

/-- `DedupStore.mark_processed` (lines 59-79): after the same two guards, try
`INSERT INTO processed_events VALUES (?, ?, ?)`; a primary-key violation is
caught as `aiosqlite.IntegrityError` and surfaced as `False`, a successful
insert commits the new row and surfaces `True`. -/
def DedupStore.mark_processed (s : DedupStore) (disk : Disk) (t e ts : String) :
    Except PyError (Bool × Disk) :=
  match s.db with
  | none => Except.error PyError.runtimeNotInitialized
  | some c =>
    if c.running then
      let tbl := Disk.table disk s.db_path
      if hasKey tbl t e then
        Except.ok (false, disk)
      else
        Except.ok (true, Disk.setTable disk s.db_path (tbl ++ [⟨t, e, ts⟩]))
    else Except.error PyError.connectionClosed

/-- Insert a string into an already-sorted list of strings. -/
def insertSorted (x : String) : List String → List String
  | [] => [x]
  | y :: ys => if x ≤ y then x :: y :: ys else y :: insertSorted x ys

/-- Insertion sort on strings, standing in for SQL `ORDER BY topic`. -/
def sortStrings : List String → List String
  | [] => []
  | x :: xs => insertSorted x (sortStrings xs)

/-- `DedupStore.get_unique_topics` (lines 81-90):
`SELECT DISTINCT topic FROM processed_events ORDER BY topic`. -/
def DedupStore.get_unique_topics (s : DedupStore) (disk : Disk) :
    Except PyError (List String) :=
  match s.db with
  | none => Except.error PyError.runtimeNotInitialized
  | some c =>
    if c.running then
      Except.ok (sortStrings ((Disk.table disk s.db_path).map (fun r => r.topic)).eraseDups)
    else Except.error PyError.connectionClosed

/-- `DedupStore.count_processed` (lines 92-107).  The Python branch
`if topic:` is truthiness: it selects the per-topic count only for a
non-`None`, non-empty topic string; `None` and `""` both fall through to
`SELECT COUNT(*) FROM processed_events`. -/
def DedupStore.count_processed (s : DedupStore) (disk : Disk) (topic : Option String) :
    Except PyError Nat :=
  match s.db with
  | none => Except.error PyError.runtimeNotInitialized
  | some c =>
    if c.running then
      let tbl := Disk.table disk s.db_path
      match topic with
      | some tp =>
        if tp != "" then Except.ok (tbl.countP fun r => r.topic == tp)
        else Except.ok tbl.length
      | none => Except.ok tbl.length
    else Except.error PyError.connectionClosed

/-- `DedupStore.close` (lines 109-113): `if self.db: await self.db.close()`.
Note the method never resets `self.db` to `None`; the store keeps holding the
(now closed) connection object. -/
def DedupStore.close (s : DedupStore) : Except PyError DedupStore :=
  match s.db with
  | none => Except.ok s
  | some c =>
    match Connection.aclose c with
    | Except.ok c2 => Except.ok { s with db := some c2 }
    | Except.error err => Except.error err

/-- The `Event` model (`src/models.py`): topic, event id, timestamp (kept as
its ISO-8601 string), source, and an open-ended payload map. -/
structure Event where
  topic : String
  event_id : String
  timestamp : String
  source : String
  payload : List (String × String)
deriving DecidableEq

/-- The three process-lifetime counters of `EventProcessor.stats`. -/
structure Stats where
  received : Nat
  unique_processed : Nat
  duplicate_dropped : Nat
deriving DecidableEq

/-- The class `EventProcessor` (`src/processor.py`): the admission
`asyncio.Queue` (its FIFO contents plus its unfinished-task counter, which
`put` increments and `task_done` decrements and `join()` waits to reach zero),
the in-memory processed log, the counters, and the `_running` flag. -/
structure EventProcessor where
  queue : List Event
  unfinished : Nat
  processed_events : List Event
  stats : Stats
  running : Bool
deriving DecidableEq

/-- `EventProcessor.__init__`: empty queue, empty log, zeroed counters,
consumer not running. -/
def EventProcessor.initial : EventProcessor :=
  { queue := [], unfinished := 0, processed_events := [],
    stats := { received := 0, unique_processed := 0, duplicate_dropped := 0 },
    running := false }

/-- `EventProcessor.start` (lines 32-40): sets `_running` and spawns the
consumer task; a second call only logs a warning, leaving the state as it is
(the same result either way). -/
def EventProcessor.start (p : EventProcessor) : EventProcessor :=
  { p with running := true }

/-- `EventProcessor.publish` (lines 55-71): adds the batch size to
`stats["received"]`, puts every event on the queue in the given order, and
returns the `received` count of this call.  It never touches the other
counters, the log, or the ledger (the method reads neither `dedup_store`
nor the disk). -/
def EventProcessor.publish (p : EventProcessor) (events : List Event) :
    EventProcessor × Nat :=
  ({ p with
      stats := { p.stats with received := p.stats.received + events.length },
      queue := p.queue ++ events,
      unfinished := p.unfinished + events.length },
   events.length)

/-- `EventProcessor._process_event` (lines 100-119): one authoritative
`mark_processed` call, then either unique-count + log append, or
duplicate-count.  An exception from the ledger propagates before any
counter or log mutation. -/
def processEvent (s : DedupStore) (p : EventProcessor) (disk : Disk) (ev : Event) :
    Except PyError (EventProcessor × Disk) :=
  match DedupStore.mark_processed s disk ev.topic ev.event_id ev.timestamp with
  | Except.error err => Except.error err
  | Except.ok (true, disk2) =>
    Except.ok
      ({ p with
          stats := { p.stats with unique_processed := p.stats.unique_processed + 1 },
          processed_events := p.processed_events ++ [ev] }, disk2)
  | Except.ok (false, disk2) =>
    Except.ok
      ({ p with
          stats := { p.stats with duplicate_dropped := p.stats.duplicate_dropped + 1 } },
       disk2)

/-- One iteration of `EventProcessor._consumer_loop` (lines 73-98).  If the
flag is down the `while` guard stops the loop (no state change); an empty
queue is the `TimeoutError` branch (continue).  Otherwise `queue.get()`
removes the head, `_process_event` runs, and only on its normal return does
`self.queue.task_done()` execute; an exception is caught by the generic
handler, which logs and continues — `task_done` is then never reached, though
the event has already left the queue. -/
def consumerStep (s : DedupStore) (pd : EventProcessor × Disk) : EventProcessor × Disk :=
  let p := pd.1
  let disk := pd.2
  if p.running then
    match p.queue with
    | [] => (p, disk)
    | ev :: rest =>
      let p1 := { p with queue := rest }
      match processEvent s p1 disk ev with
      | Except.ok (p2, disk2) => ({ p2 with unfinished := p2.unfinished - 1 }, disk2)
      | Except.error _ => (p1, disk)
  else (p, disk)

/-- A pipeline history: the externally driven `publish` calls interleaved
with iterations of the consumer loop. -/
inductive PipeCmd where
  | publishBatch (events : List Event)
  | consume

/-- Run a pipeline history over a fixed store, threading processor state and
disk. -/
def runPipe (s : DedupStore) : List PipeCmd → EventProcessor × Disk → EventProcessor × Disk
  | [], pd => pd
  | PipeCmd.publishBatch evs :: cmds, pd =>
    runPipe s cmds ((EventProcessor.publish pd.1 evs).1, pd.2)
  | PipeCmd.consume :: cmds, pd =>
    runPipe s cmds (consumerStep s pd)

/-- Whether call `c` targets the dedup key `(t, e)`. -/
def isPairCall (t e : String) (c : DedupRecord) : Bool :=
  c.topic == t && c.event_id == e

/-- The core of one `mark_processed` call at table level: the attempted
`INSERT` with its primary-key constraint. -/
def markTable (tbl : List DedupRecord) (t e ts : String) : Bool × List DedupRecord :=
  if hasKey tbl t e then (false, tbl) else (true, tbl ++ [⟨t, e, ts⟩])

/-- A sequence of `mark_processed` calls at table level: the booleans returned,
in call order, and the final table. -/
def runMarks : List DedupRecord → List DedupRecord → List Bool × List DedupRecord
  | tbl, [] => ([], tbl)
  | tbl, c :: cs =>
    let r := markTable tbl c.topic c.event_id c.first_seen_at
    let rest := runMarks r.2 cs
    (r.1 :: rest.1, rest.2)

/-- A sequence of `DedupStore.mark_processed` calls against one store,
threading the disk; a call that raises contributes no boolean (on an open
store no call raises). -/
def runStoreMarks (s : DedupStore) : Disk → List DedupRecord → List Bool × Disk
  | disk, [] => ([], disk)
  | disk, c :: cs =>
    match DedupStore.mark_processed s disk c.topic c.event_id c.first_seen_at with
    | Except.ok (b, disk2) =>
      let rest := runStoreMarks s disk2 cs
      (b :: rest.1, rest.2)
    | Except.error _ => runStoreMarks s disk cs

/-- Two rows collide on the table's natural key. -/
def sameKey (a b : DedupRecord) : Prop :=
  a.topic = b.topic ∧ a.event_id = b.event_id

instance : DecidablePred fun p : DedupRecord × DedupRecord => sameKey p.1 p.2 :=
  fun _ => by unfold sameKey; infer_instance

instance (a b : DedupRecord) : Decidable (sameKey a b) := by
  unfold sameKey; infer_instance

/-- The ledger's uniqueness invariant: no two rows of the table share the
`(topic, event_id)` primary key. -/
def nodupKeys (tbl : List DedupRecord) : Prop :=
  tbl.Pairwise fun a b => ¬ sameKey a b

/-! ## Basic lemmas about the disk model -/

theorem table_setTable (d : Disk) (p : String) (tbl : List DedupRecord) :
    Disk.table (Disk.setTable d p tbl) p = tbl := by
  induction d with
  | nil => simp [Disk.setTable, Disk.table]
  | cons hd rest ih =>
    obtain ⟨q, t0⟩ := hd
    by_cases h : q = p
    · simp [Disk.setTable, h, Disk.table]
    · simp [Disk.setTable, h, Disk.table, ih]

theorem hasTable_setTable (d : Disk) (p : String) (tbl : List DedupRecord) :
    Disk.hasTable (Disk.setTable d p tbl) p = true := by
  induction d with
  | nil => simp [Disk.setTable, Disk.hasTable]
  | cons hd rest ih =>
    obtain ⟨q, t0⟩ := hd
    by_cases h : q = p
    · simp [Disk.setTable, h, Disk.hasTable]
    · simp [Disk.setTable, h, Disk.hasTable, ih]

theorem hasKey_append (t1 t2 : List DedupRecord) (t e : String) :
    hasKey (t1 ++ t2) t e = (hasKey t1 t e || hasKey t2 t e) := by
  simp [hasKey, List.any_append]

theorem hasKey_singleton (r : DedupRecord) (t e : String) :
    hasKey [r] t e = (r.topic == t && r.event_id == e) := by
  simp [hasKey]

/-! ## Characterization of the ledger operations on an open store -/

theorem mark_processed_open (s : DedupStore) (disk : Disk) (t e ts : String)
    (hdb : s.db = some { running := true }) :
    DedupStore.mark_processed s disk t e ts =
      (if hasKey (Disk.table disk s.db_path) t e then
        Except.ok (false, disk)
      else
        Except.ok (true,
          Disk.setTable disk s.db_path (Disk.table disk s.db_path ++ [⟨t, e, ts⟩]))) := by
  unfold DedupStore.mark_processed
  rw [hdb]
  rfl

theorem is_duplicate_open (s : DedupStore) (disk : Disk) (t e : String)
    (hdb : s.db = some { running := true }) :
    DedupStore.is_duplicate s disk t e =
      Except.ok (hasKey (Disk.table disk s.db_path) t e) := by
  unfold DedupStore.is_duplicate
  rw [hdb]
  rfl

/-- C1: on an initialized (open) ledger, `mark_processed(topic, event_id, ts)`
always returns an ordinary boolean (it never raises, in particular not on a
duplicate key); the boolean is `true` exactly when no row with that
`(topic, event_id)` key existed before the call; on `true` the row is
inserted, on `false` the durable state is untouched. -/
theorem mark_processed_first_insert_iff (s : DedupStore) (disk : Disk) (t e ts : String)
    (hdb : s.db = some { running := true }) :
    ∃ b disk2, DedupStore.mark_processed s disk t e ts = Except.ok (b, disk2) ∧
      (b = true ↔ hasKey (Disk.table disk s.db_path) t e = false) ∧
      (b = true →
        Disk.table disk2 s.db_path = Disk.table disk s.db_path ++ [⟨t, e, ts⟩]) ∧
      (b = false → disk2 = disk) := by
  rw [mark_processed_open s disk t e ts hdb]
  by_cases h : hasKey (Disk.table disk s.db_path) t e
  · exact ⟨false, disk, by simp [h]⟩
  · refine ⟨true, Disk.setTable disk s.db_path (Disk.table disk s.db_path ++ [⟨t, e, ts⟩]),
      by simp [h], by simp [h], fun _ => table_setTable disk s.db_path _, by simp⟩

/-- Concrete instantiation of `mark_processed_first_insert_iff`: a fresh store
over an empty disk, marking `("T", "1")`. -/
theorem mark_processed_first_insert_iff_witness :
    ∃ b disk2,
      DedupStore.mark_processed
        { db_path := "data/dedup.db", db := some { running := true } } [] "T" "1" "ts"
        = Except.ok (b, disk2) ∧
      (b = true ↔
        hasKey (Disk.table ([] : Disk) "data/dedup.db") "T" "1" = false) ∧
      (b = true →
        Disk.table disk2 "data/dedup.db" =
          Disk.table ([] : Disk) "data/dedup.db" ++ [⟨"T", "1", "ts"⟩]) ∧
      (b = false → disk2 = ([] : Disk)) :=
  mark_processed_first_insert_iff
    { db_path := "data/dedup.db", db := some { running := true } } [] "T" "1" "ts" rfl

/-- C3: if `mark_processed(topic, event_id)` returned `true` and the ledger is
closed, a fresh ledger instance initialized against the same database path
still sees the pair: `is_duplicate` answers `true` and `mark_processed`
answers `false` without touching the durable state. -/
theorem dedup_survives_reopen (s : DedupStore) (disk disk1 : Disk) (t e ts ts2 : String)
    (hdb : s.db = some { running := true })
    (s1c : DedupStore) (_hclose : DedupStore.close s = Except.ok s1c)
    (hmark : DedupStore.mark_processed s disk t e ts = Except.ok (true, disk1)) :
    DedupStore.is_duplicate
        (DedupStore.initializeStore { db_path := s.db_path, db := none } disk1).1
        (DedupStore.initializeStore { db_path := s.db_path, db := none } disk1).2 t e
      = Except.ok true ∧
    DedupStore.mark_processed
        (DedupStore.initializeStore { db_path := s.db_path, db := none } disk1).1
        (DedupStore.initializeStore { db_path := s.db_path, db := none } disk1).2 t e ts2
      = Except.ok (false,
          (DedupStore.initializeStore { db_path := s.db_path, db := none } disk1).2) := by
  rw [mark_processed_open s disk t e ts hdb] at hmark
  by_cases h : hasKey (Disk.table disk s.db_path) t e
  · simp [h] at hmark
  · rw [if_neg (by simp [h])] at hmark
    have hd1 : disk1
        = Disk.setTable disk s.db_path (Disk.table disk s.db_path ++ [⟨t, e, ts⟩]) := by
      cases hmark
      rfl
    have hTable : Disk.table disk1 s.db_path
        = Disk.table disk s.db_path ++ [⟨t, e, ts⟩] := by
      rw [hd1, table_setTable]
    have hHas : hasKey (Disk.table disk1 s.db_path) t e = true := by
      rw [hTable, hasKey_append, hasKey_singleton]
      simp
    have hEnsure : Disk.ensureTable disk1 s.db_path = disk1 := by
      unfold Disk.ensureTable
      rw [hd1, hasTable_setTable]
      simp
    constructor
    · show DedupStore.is_duplicate { db_path := s.db_path, db := some { running := true } }
          (Disk.ensureTable disk1 s.db_path) t e = Except.ok true
      rw [is_duplicate_open _ _ _ _ rfl]
      show Except.ok (hasKey (Disk.table (Disk.ensureTable disk1 s.db_path) s.db_path) t e)
          = Except.ok true
      rw [hEnsure, hHas]
    · show DedupStore.mark_processed { db_path := s.db_path, db := some { running := true } }
          (Disk.ensureTable disk1 s.db_path) t e ts2
          = Except.ok (false, Disk.ensureTable disk1 s.db_path)
      rw [mark_processed_open _ _ _ _ _ rfl]
      show (if hasKey (Disk.table (Disk.ensureTable disk1 s.db_path) s.db_path) t e then
          Except.ok (false, Disk.ensureTable disk1 s.db_path)
        else _) = Except.ok (false, Disk.ensureTable disk1 s.db_path)
      rw [hEnsure, hHas]
      simp

/-- Concrete instantiation of `dedup_survives_reopen`: mark `("T", "1")` on a
fresh store over the empty disk, close it, reopen at the same path. -/
theorem dedup_survives_reopen_witness :
    DedupStore.is_duplicate
        (DedupStore.initializeStore { db_path := "data/dedup.db", db := none }
          [("data/dedup.db", [⟨"T", "1", "ts"⟩])]).1
        (DedupStore.initializeStore { db_path := "data/dedup.db", db := none }
          [("data/dedup.db", [⟨"T", "1", "ts"⟩])]).2 "T" "1"
      = Except.ok true ∧
    DedupStore.mark_processed
        (DedupStore.initializeStore { db_path := "data/dedup.db", db := none }
          [("data/dedup.db", [⟨"T", "1", "ts"⟩])]).1
        (DedupStore.initializeStore { db_path := "data/dedup.db", db := none }
          [("data/dedup.db", [⟨"T", "1", "ts"⟩])]).2 "T" "1" "ts2"
      = Except.ok (false,
          (DedupStore.initializeStore { db_path := "data/dedup.db", db := none }
            [("data/dedup.db", [⟨"T", "1", "ts"⟩])]).2) :=
  dedup_survives_reopen
    { db_path := "data/dedup.db", db := some { running := true } }
    [("data/dedup.db", [])] [("data/dedup.db", [⟨"T", "1", "ts"⟩])]
    "T" "1" "ts" "ts2" rfl
    { db_path := "data/dedup.db", db := some { running := false } } rfl rfl

/-- C9: on a ledger that has been initialized, `close()` succeeds, and calling
`close()` again on the already-closed ledger succeeds with no effect and no
error: `if self.db:` still sees the stored connection object and aiosqlite's
`close()` returns immediately on an already-closed connection. -/
theorem close_idempotent (s : DedupStore) (c : Connection) (hdb : s.db = some c) :
    ∃ s2, DedupStore.close s = Except.ok s2 ∧ DedupStore.close s2 = Except.ok s2 := by
  refine ⟨{ s with db := some { running := false } }, ?_, ?_⟩
  · unfold DedupStore.close
    rw [hdb]
    rfl
  · unfold DedupStore.close
    rfl

/-- Concrete instantiation of `close_idempotent` on a freshly opened store. -/
theorem close_idempotent_witness :
    ∃ s2, DedupStore.close { db_path := "data/dedup.db", db := some { running := true } }
        = Except.ok s2 ∧
      DedupStore.close s2 = Except.ok s2 :=
  close_idempotent { db_path := "data/dedup.db", db := some { running := true } }
    { running := true } rfl

/-- C10: on an initialized ledger, `count_processed("")` falls into the
`else` branch of the truthiness test `if topic:` exactly like passing no
topic at all: it returns the total row count over all topics, not the count
of rows whose topic is the empty string. -/
theorem count_processed_empty_topic_total (s : DedupStore) (disk : Disk)
    (hdb : s.db = some { running := true }) :
    DedupStore.count_processed s disk (some "")
      = Except.ok (Disk.table disk s.db_path).length ∧
    DedupStore.count_processed s disk (some "")
      = DedupStore.count_processed s disk none := by
  unfold DedupStore.count_processed
  rw [hdb]
  exact ⟨rfl, rfl⟩

/-- Concrete instantiation of `count_processed_empty_topic_total`: two rows in
distinct topics; the empty-string query counts both. -/
theorem count_processed_empty_topic_total_witness :
    DedupStore.count_processed { db_path := "p", db := some { running := true } }
        [("p", [⟨"a", "1", "ts"⟩, ⟨"b", "2", "ts"⟩])] (some "")
      = Except.ok 2 ∧
    DedupStore.count_processed { db_path := "p", db := some { running := true } }
        [("p", [⟨"a", "1", "ts"⟩, ⟨"b", "2", "ts"⟩])] (some "")
      = DedupStore.count_processed { db_path := "p", db := some { running := true } }
          [("p", [⟨"a", "1", "ts"⟩, ⟨"b", "2", "ts"⟩])] none :=
  count_processed_empty_topic_total { db_path := "p", db := some { running := true } }
    [("p", [⟨"a", "1", "ts"⟩, ⟨"b", "2", "ts"⟩])] rfl

/-- C6 (amended): a ledger operation invoked before `initialize()` fails with
the uninitialized-state error, but an operation invoked after `close()` fails
with the storage layer's connection-closed error instead: `close()` leaves
`self.db` holding the closed connection, so the `if not self.db` guard
passes and the closed handle raises. -/
theorem ops_uninitialized_or_closed_error (s : DedupStore) (disk : Disk) (t e ts : String) :
    (s.db = none →
      DedupStore.is_duplicate s disk t e = Except.error PyError.runtimeNotInitialized ∧
      DedupStore.mark_processed s disk t e ts = Except.error PyError.runtimeNotInitialized ∧
      DedupStore.get_unique_topics s disk = Except.error PyError.runtimeNotInitialized ∧
      DedupStore.count_processed s disk (some t)
        = Except.error PyError.runtimeNotInitialized ∧
      DedupStore.count_processed s disk none
        = Except.error PyError.runtimeNotInitialized) ∧
    (∀ c s2, s.db = some c → DedupStore.close s = Except.ok s2 →
      DedupStore.is_duplicate s2 disk t e = Except.error PyError.connectionClosed ∧
      DedupStore.mark_processed s2 disk t e ts = Except.error PyError.connectionClosed ∧
      DedupStore.get_unique_topics s2 disk = Except.error PyError.connectionClosed ∧
      DedupStore.count_processed s2 disk (some t)
        = Except.error PyError.connectionClosed ∧
      DedupStore.count_processed s2 disk none
        = Except.error PyError.connectionClosed) := by
  constructor
  · intro h
    unfold DedupStore.is_duplicate DedupStore.mark_processed
      DedupStore.get_unique_topics DedupStore.count_processed
    rw [h]
    exact ⟨rfl, rfl, rfl, rfl, rfl⟩
  · intro c s2 hc hcl
    unfold DedupStore.close at hcl
    rw [hc] at hcl
    have hs2 : s2 = { s with db := some { running := false } } := by
      cases hcl
      rfl
    subst hs2
    unfold DedupStore.is_duplicate DedupStore.mark_processed
      DedupStore.get_unique_topics DedupStore.count_processed
    exact ⟨rfl, rfl, rfl, rfl, rfl⟩

/-- Concrete instantiation of `ops_uninitialized_or_closed_error`: both a
never-initialized store and an initialized-then-closed store. -/
theorem ops_uninitialized_or_closed_error_witness :
    DedupStore.mark_processed { db_path := "p", db := none } [] "T" "1" "ts"
      = Except.error PyError.runtimeNotInitialized ∧
    DedupStore.mark_processed { db_path := "p", db := some { running := false } } [] "T" "1" "ts"
      = Except.error PyError.connectionClosed :=
  ⟨((ops_uninitialized_or_closed_error { db_path := "p", db := none } [] "T" "1" "ts").1
      rfl).2.1,
   ((ops_uninitialized_or_closed_error { db_path := "p", db := some { running := true } }
      [] "T" "1" "ts").2 { running := true }
      { db_path := "p", db := some { running := false } } rfl rfl).2.1⟩

/-- C6 counterexample: on a concrete store that is initialized and then
closed, `mark_processed` fails with the connection-closed error, which is not
the uninitialized-state error the claim demands. -/
theorem close_then_op_error_not_uninitialized :
    DedupStore.close
        (DedupStore.initializeStore { db_path := "data/dedup.db", db := none } []).1
      = Except.ok { db_path := "data/dedup.db", db := some { running := false } } ∧
    DedupStore.mark_processed
        { db_path := "data/dedup.db", db := some { running := false } }
        (DedupStore.initializeStore { db_path := "data/dedup.db", db := none } []).2
        "T" "1" "ts"
      = Except.error PyError.connectionClosed ∧
    DedupStore.mark_processed
        { db_path := "data/dedup.db", db := some { running := false } }
        (DedupStore.initializeStore { db_path := "data/dedup.db", db := none } []).2
        "T" "1" "ts"
      ≠ Except.error PyError.runtimeNotInitialized := by
  refine ⟨rfl, rfl, ?_⟩
  intro h
  rw [show DedupStore.mark_processed
        { db_path := "data/dedup.db", db := some { running := false } }
        (DedupStore.initializeStore { db_path := "data/dedup.db", db := none } []).2
        "T" "1" "ts"
      = Except.error PyError.connectionClosed from rfl] at h
  exact PyError.noConfusion (Except.error.inj h)

/-- C8: `publish(events)` appends the batch to the admission queue in order,
adds the batch size to `received` at admission time (the other two counters,
the in-memory log and the consumer flag are untouched, and the method takes
no ledger or disk at all), registers the batch in the queue's unfinished-task
count, and returns the batch size. -/
theorem publish_admission_only (p : EventProcessor) (events : List Event) :
    (EventProcessor.publish p events).2 = events.length ∧
    (EventProcessor.publish p events).1.queue = p.queue ++ events ∧
    (EventProcessor.publish p events).1.stats.received
      = p.stats.received + events.length ∧
    (EventProcessor.publish p events).1.stats.unique_processed
      = p.stats.unique_processed ∧
    (EventProcessor.publish p events).1.stats.duplicate_dropped
      = p.stats.duplicate_dropped ∧
    (EventProcessor.publish p events).1.processed_events = p.processed_events ∧
    (EventProcessor.publish p events).1.unfinished = p.unfinished + events.length ∧
    (EventProcessor.publish p events).1.running = p.running :=
  ⟨rfl, rfl, rfl, rfl, rfl, rfl, rfl, rfl⟩

/-- C5: publishing `[(T,"1"),(T,"2"),(T,"1"),(T,"3"),(T,"2")]` to a freshly
started pipeline over a freshly initialized, empty ledger and then letting
the consumer drain the queue yields `received = 5`, `unique_processed = 3`,
`duplicate_dropped = 2`, and an in-memory log holding exactly the first
occurrences of ids "1", "2", "3" in that order. -/
theorem scenario_five_events_dedup :
    let e1 : Event := ⟨"T", "1", "t1", "src", []⟩
    let e2 : Event := ⟨"T", "2", "t2", "src", []⟩
    let e3 : Event := ⟨"T", "1", "t3", "src", []⟩
    let e4 : Event := ⟨"T", "3", "t4", "src", []⟩
    let e5 : Event := ⟨"T", "2", "t5", "src", []⟩
    let opened := DedupStore.initializeStore { db_path := "data/dedup.db", db := none } []
    let r := runPipe opened.1
      [PipeCmd.publishBatch [e1, e2, e3, e4, e5],
       PipeCmd.consume, PipeCmd.consume, PipeCmd.consume, PipeCmd.consume, PipeCmd.consume]
      (EventProcessor.start EventProcessor.initial, opened.2)
    r.1.queue = [] ∧
    r.1.stats.received = 5 ∧
    r.1.stats.unique_processed = 3 ∧
    r.1.stats.duplicate_dropped = 2 ∧
    r.1.processed_events = [e1, e2, e4] ∧
    r.1.processed_events.map (fun ev => ev.event_id) = ["1", "2", "3"] := by
  decide

/-- C7 evaluated at its failing input: the consumer takes the one queued event
while the ledger's storage is unavailable (closed handle), `mark_processed`
raises, the generic handler swallows the error and continues.  The event has
left the queue (no retry), but `task_done` was never reached: the queue's
unfinished-task count stays at 1 instead of dropping to 0, and further
consumer iterations never change that, so `stop()`'s `queue.join()` can never
complete.  The claim's "marked as consumed for drain-accounting" is exactly
what the code fails to do. -/
theorem consumer_error_skips_task_done :
    let s : DedupStore := { db_path := "data/dedup.db", db := some { running := false } }
    let ev : Event := ⟨"T", "1", "t1", "src", []⟩
    let p1 := (EventProcessor.publish (EventProcessor.start EventProcessor.initial) [ev]).1
    let r := consumerStep s (p1, [("data/dedup.db", [])])
    p1.queue = [ev] ∧
    p1.unfinished = 1 ∧
    r.1.queue = [] ∧
    r.1.unfinished = 1 ∧
    r.1.stats.received = 1 ∧
    r.1.stats.unique_processed = 0 ∧
    r.1.stats.duplicate_dropped = 0 ∧
    r.1.processed_events = [] ∧
    consumerStep s r = r := by
  decide

/-! ## Counter bookkeeping of the pipeline (for the stats invariant) -/

theorem pipe_inv_publish (p : EventProcessor) (evs : List Event)
    (h : p.stats.received
      = p.stats.unique_processed + p.stats.duplicate_dropped + p.queue.length) :
    (EventProcessor.publish p evs).1.stats.received
      = (EventProcessor.publish p evs).1.stats.unique_processed
        + (EventProcessor.publish p evs).1.stats.duplicate_dropped
        + (EventProcessor.publish p evs).1.queue.length := by
  show p.stats.received + evs.length
    = p.stats.unique_processed + p.stats.duplicate_dropped + (p.queue ++ evs).length
  rw [List.length_append]
  omega

theorem pipe_inv_consume (s : DedupStore) (pd : EventProcessor × Disk)
    (hdb : s.db = some { running := true })
    (h : pd.1.stats.received
      = pd.1.stats.unique_processed + pd.1.stats.duplicate_dropped + pd.1.queue.length) :
    (consumerStep s pd).1.stats.received
      = (consumerStep s pd).1.stats.unique_processed
        + (consumerStep s pd).1.stats.duplicate_dropped
        + (consumerStep s pd).1.queue.length := by
  unfold consumerStep
  by_cases hr : pd.1.running
  · rw [if_pos hr]
    cases hq : pd.1.queue with
    | nil => simpa [hq] using h
    | cons ev rest =>
      dsimp only
      unfold processEvent
      rw [mark_processed_open s pd.2 ev.topic ev.event_id ev.timestamp hdb]
      by_cases hk : hasKey (Disk.table pd.2 s.db_path) ev.topic ev.event_id
      · rw [if_pos hk]
        dsimp only
        rw [hq] at h
        simp only [List.length_cons] at h
        omega
      · rw [if_neg hk]
        dsimp only
        rw [hq] at h
        simp only [List.length_cons] at h
        omega
  · rw [if_neg hr]
    exact h

theorem pipe_inv_run (s : DedupStore) (hdb : s.db = some { running := true })
    (cmds : List PipeCmd) :
    ∀ pd : EventProcessor × Disk,
      pd.1.stats.received
        = pd.1.stats.unique_processed + pd.1.stats.duplicate_dropped + pd.1.queue.length →
      (runPipe s cmds pd).1.stats.received
        = (runPipe s cmds pd).1.stats.unique_processed
          + (runPipe s cmds pd).1.stats.duplicate_dropped
          + (runPipe s cmds pd).1.queue.length := by
  induction cmds with
  | nil => intro pd h; exact h
  | cons cmd cmds ih =>
    intro pd h
    cases cmd with
    | publishBatch evs =>
      show (runPipe s cmds ((EventProcessor.publish pd.1 evs).1, pd.2)).1.stats.received = _
      exact ih ((EventProcessor.publish pd.1 evs).1, pd.2) (pipe_inv_publish pd.1 evs h)
    | consume =>
      show (runPipe s cmds (consumerStep s pd)).1.stats.received = _
      exact ih (consumerStep s pd) (pipe_inv_consume s pd hdb h)

/-- C4: over an available (open) ledger, after any interleaving of `publish`
calls and consumer iterations from a fresh pipeline: once the admission queue
has fully drained the counters satisfy
`received = unique_processed + duplicate_dropped`, and at every point
(drained or not) `received ≥ unique_processed + duplicate_dropped`. -/
theorem stats_additivity (s : DedupStore) (disk : Disk) (cmds : List PipeCmd)
    (hdb : s.db = some { running := true }) :
    ((runPipe s cmds (EventProcessor.start EventProcessor.initial, disk)).1.queue = [] →
      (runPipe s cmds (EventProcessor.start EventProcessor.initial, disk)).1.stats.received
        = (runPipe s cmds (EventProcessor.start EventProcessor.initial, disk)).1.stats.unique_processed
          + (runPipe s cmds (EventProcessor.start EventProcessor.initial, disk)).1.stats.duplicate_dropped) ∧
    (runPipe s cmds (EventProcessor.start EventProcessor.initial, disk)).1.stats.unique_processed
        + (runPipe s cmds (EventProcessor.start EventProcessor.initial, disk)).1.stats.duplicate_dropped
      ≤ (runPipe s cmds (EventProcessor.start EventProcessor.initial, disk)).1.stats.received := by
  have h := pipe_inv_run s hdb cmds (EventProcessor.start EventProcessor.initial, disk) rfl
  constructor
  · intro hq
    rw [hq] at h
    simpa using h
  · omega

/-- Concrete instantiation of `stats_additivity`: two publishes (one a
duplicate of the other) and two consumer iterations over a fresh ledger. -/
theorem stats_additivity_witness :
    ((runPipe { db_path := "p", db := some { running := true } }
        [PipeCmd.publishBatch [⟨"T", "1", "t1", "src", []⟩, ⟨"T", "1", "t2", "src", []⟩],
         PipeCmd.consume, PipeCmd.consume]
        (EventProcessor.start EventProcessor.initial, [("p", [])])).1.queue = [] →
      (runPipe { db_path := "p", db := some { running := true } }
        [PipeCmd.publishBatch [⟨"T", "1", "t1", "src", []⟩, ⟨"T", "1", "t2", "src", []⟩],
         PipeCmd.consume, PipeCmd.consume]
        (EventProcessor.start EventProcessor.initial, [("p", [])])).1.stats.received
        = (runPipe { db_path := "p", db := some { running := true } }
            [PipeCmd.publishBatch [⟨"T", "1", "t1", "src", []⟩, ⟨"T", "1", "t2", "src", []⟩],
             PipeCmd.consume, PipeCmd.consume]
            (EventProcessor.start EventProcessor.initial, [("p", [])])).1.stats.unique_processed
          + (runPipe { db_path := "p", db := some { running := true } }
              [PipeCmd.publishBatch [⟨"T", "1", "t1", "src", []⟩, ⟨"T", "1", "t2", "src", []⟩],
               PipeCmd.consume, PipeCmd.consume]
              (EventProcessor.start EventProcessor.initial, [("p", [])])).1.stats.duplicate_dropped) ∧
    (runPipe { db_path := "p", db := some { running := true } }
        [PipeCmd.publishBatch [⟨"T", "1", "t1", "src", []⟩, ⟨"T", "1", "t2", "src", []⟩],
         PipeCmd.consume, PipeCmd.consume]
        (EventProcessor.start EventProcessor.initial, [("p", [])])).1.stats.unique_processed
      + (runPipe { db_path := "p", db := some { running := true } }
          [PipeCmd.publishBatch [⟨"T", "1", "t1", "src", []⟩, ⟨"T", "1", "t2", "src", []⟩],
           PipeCmd.consume, PipeCmd.consume]
          (EventProcessor.start EventProcessor.initial, [("p", [])])).1.stats.duplicate_dropped
      ≤ (runPipe { db_path := "p", db := some { running := true } }
          [PipeCmd.publishBatch [⟨"T", "1", "t1", "src", []⟩, ⟨"T", "1", "t2", "src", []⟩],
           PipeCmd.consume, PipeCmd.consume]
          (EventProcessor.start EventProcessor.initial, [("p", [])])).1.stats.received :=
  stats_additivity { db_path := "p", db := some { running := true } } [("p", [])]
    [PipeCmd.publishBatch [⟨"T", "1", "t1", "src", []⟩, ⟨"T", "1", "t2", "src", []⟩],
     PipeCmd.consume, PipeCmd.consume] rfl

/-! ## The primary-key uniqueness argument (for mark_processed) -/

theorem nodupKeys_append_single (tbl : List DedupRecord) (t e ts : String)
    (h : nodupKeys tbl) (hk : hasKey tbl t e = false) :
    nodupKeys (tbl ++ [⟨t, e, ts⟩]) := by
  unfold nodupKeys at h ⊢
  rw [List.pairwise_append]
  refine ⟨h, List.pairwise_singleton _ _, ?_⟩
  intro a ha b hb
  simp only [List.mem_singleton] at hb
  subst hb
  unfold hasKey at hk
  rw [List.any_eq_false] at hk
  intro hs
  obtain ⟨h1, h2⟩ := hs
  exact hk a ha (by simp [h1, h2])

theorem nodupKeys_markTable (tbl : List DedupRecord) (t e ts : String)
    (h : nodupKeys tbl) : nodupKeys (markTable tbl t e ts).2 := by
  cases hk : hasKey tbl t e with
  | true => simpa [markTable, hk] using h
  | false =>
    have : (markTable tbl t e ts).2 = tbl ++ [⟨t, e, ts⟩] := by simp [markTable, hk]
    rw [this]
    exact nodupKeys_append_single tbl t e ts h hk

theorem nodupKeys_runMarks (cs : List DedupRecord) :
    ∀ tbl, nodupKeys tbl → nodupKeys (runMarks tbl cs).2 := by
  induction cs with
  | nil => intro tbl h; exact h
  | cons c cs ih =>
    intro tbl h
    show nodupKeys (runMarks (markTable tbl c.topic c.event_id c.first_seen_at).2 cs).2
    exact ih _ (nodupKeys_markTable tbl c.topic c.event_id c.first_seen_at h)

theorem hasKey_markTable (tbl : List DedupRecord) (ct ce ts t e : String) :
    hasKey (markTable tbl ct ce ts).2 t e
      = (hasKey tbl t e || (ct == t && ce == e)) := by
  cases hb : (ct == t && ce == e) with
  | true =>
    simp only [Bool.and_eq_true, beq_iff_eq] at hb
    obtain ⟨rfl, rfl⟩ := hb
    cases hk : hasKey tbl ct ce with
    | true => simp [markTable, hk]
    | false =>
      simp only [markTable, hk, Bool.false_eq_true, if_false]
      rw [hasKey_append, hasKey_singleton]
      simp [hk]
  | false =>
    cases hk : hasKey tbl ct ce with
    | true => simp [markTable, hk, hb]
    | false =>
      simp only [markTable, hk, Bool.false_eq_true, if_false]
      rw [hasKey_append, hasKey_singleton]
      simp [hb]

theorem runMarks_trueCount (t e : String) (cs : List DedupRecord) :
    ∀ tbl : List DedupRecord,
      ((cs.zip (runMarks tbl cs).1).countP fun q => isPairCall t e q.1 && q.2)
        = if hasKey tbl t e then 0 else min 1 (cs.countP (isPairCall t e)) := by
  induction cs with
  | nil =>
    intro tbl
    cases hk : hasKey tbl t e <;> simp [runMarks, hk]
  | cons c cs ih =>
    intro tbl
    show (((c, (markTable tbl c.topic c.event_id c.first_seen_at).1)
          :: cs.zip (runMarks (markTable tbl c.topic c.event_id c.first_seen_at).2 cs).1).countP
            fun q => isPairCall t e q.1 && q.2)
      = if hasKey tbl t e then 0 else min 1 ((c :: cs).countP (isPairCall t e))
    rw [List.countP_cons, ih]
    cases hb : isPairCall t e c with
    | true =>
      have hb2 := hb
      unfold isPairCall at hb2
      simp only [Bool.and_eq_true, beq_iff_eq] at hb2
      obtain ⟨rfl, rfl⟩ := hb2
      cases hk : hasKey tbl c.topic c.event_id with
      | true =>
        simp [markTable, hk, hb]
      | false =>
        have hm1 : (markTable tbl c.topic c.event_id c.first_seen_at).1 = true := by
          simp [markTable, hk]
        have hm2 : hasKey (markTable tbl c.topic c.event_id c.first_seen_at).2
            c.topic c.event_id = true := by
          rw [hasKey_markTable]
          simp
        rw [hm1, hm2, List.countP_cons]
        simp [hk, hb]
    | false =>
      have hm2 : hasKey (markTable tbl c.topic c.event_id c.first_seen_at).2 t e
          = hasKey tbl t e := by
        rw [hasKey_markTable]
        unfold isPairCall at hb
        simp [hb]
      rw [hm2, List.countP_cons]
      simp [hb]

theorem runMarks_pairSum (t e : String) (cs : List DedupRecord) :
    ∀ tbl : List DedupRecord,
      ((cs.zip (runMarks tbl cs).1).countP fun q => isPairCall t e q.1 && q.2)
        + ((cs.zip (runMarks tbl cs).1).countP fun q => isPairCall t e q.1 && !q.2)
        = cs.countP (isPairCall t e) := by
  induction cs with
  | nil => intro tbl; simp [runMarks]
  | cons c cs ih =>
    intro tbl
    show (((c, (markTable tbl c.topic c.event_id c.first_seen_at).1)
          :: cs.zip (runMarks (markTable tbl c.topic c.event_id c.first_seen_at).2 cs).1).countP
            fun q => isPairCall t e q.1 && q.2)
        + (((c, (markTable tbl c.topic c.event_id c.first_seen_at).1)
          :: cs.zip (runMarks (markTable tbl c.topic c.event_id c.first_seen_at).2 cs).1).countP
            fun q => isPairCall t e q.1 && !q.2)
      = (c :: cs).countP (isPairCall t e)
    rw [List.countP_cons, List.countP_cons, List.countP_cons]
    have h := ih (markTable tbl c.topic c.event_id c.first_seen_at).2
    cases hb : isPairCall t e c <;>
      cases hm : (markTable tbl c.topic c.event_id c.first_seen_at).1 <;>
      simp [hb, hm] <;> omega

theorem mark_processed_fst_table (s : DedupStore) (disk : Disk) (t e ts : String)
    (hdb : s.db = some { running := true }) :
    ∃ disk2, DedupStore.mark_processed s disk t e ts
        = Except.ok ((markTable (Disk.table disk s.db_path) t e ts).1, disk2)
      ∧ Disk.table disk2 s.db_path = (markTable (Disk.table disk s.db_path) t e ts).2 := by
  rw [mark_processed_open s disk t e ts hdb]
  cases hk : hasKey (Disk.table disk s.db_path) t e with
  | true => exact ⟨disk, by simp [markTable, hk]⟩
  | false =>
    refine ⟨Disk.setTable disk s.db_path (Disk.table disk s.db_path ++ [⟨t, e, ts⟩]),
      by simp [markTable, hk], ?_⟩
    rw [table_setTable]
    simp [markTable, hk]

theorem runStoreMarks_eq_runMarks (s : DedupStore)
    (hdb : s.db = some { running := true }) (cs : List DedupRecord) :
    ∀ disk : Disk,
      (runStoreMarks s disk cs).1 = (runMarks (Disk.table disk s.db_path) cs).1 ∧
      Disk.table (runStoreMarks s disk cs).2 s.db_path
        = (runMarks (Disk.table disk s.db_path) cs).2 := by
  induction cs with
  | nil => intro disk; exact ⟨rfl, rfl⟩
  | cons c cs ih =>
    intro disk
    obtain ⟨disk2, hm, ht⟩ :=
      mark_processed_fst_table s disk c.topic c.event_id c.first_seen_at hdb
    unfold runStoreMarks
    rw [hm]
    obtain ⟨ih1, ih2⟩ := ih disk2
    constructor
    · show (markTable (Disk.table disk s.db_path) c.topic c.event_id c.first_seen_at).1
          :: (runStoreMarks s disk2 cs).1
        = (markTable (Disk.table disk s.db_path) c.topic c.event_id c.first_seen_at).1
          :: (runMarks (markTable (Disk.table disk s.db_path)
                c.topic c.event_id c.first_seen_at).2 cs).1
      rw [ih1, ht]
    · show Disk.table (runStoreMarks s disk2 cs).2 s.db_path
        = (runMarks (markTable (Disk.table disk s.db_path)
            c.topic c.event_id c.first_seen_at).2 cs).2
      rw [ih2, ht]

/-- C2: starting from any ledger state satisfying the uniqueness invariant in
which `(t, e)` is not yet recorded, run any sequence of `mark_processed`
calls (calls for `(t, e)` arbitrarily interleaved with calls for other keys).
The uniqueness invariant still holds afterwards, and of the calls that target
`(t, e)` — say there are N of them — exactly one returned `true` and the
other N − 1 returned `false`. -/
theorem mark_processed_exactly_once (s : DedupStore) (disk : Disk) (t e : String)
    (cs : List DedupRecord)
    (hdb : s.db = some { running := true })
    (hnd : nodupKeys (Disk.table disk s.db_path))
    (habs : hasKey (Disk.table disk s.db_path) t e = false)
    (hsome : cs.countP (isPairCall t e) ≠ 0) :
    nodupKeys (Disk.table (runStoreMarks s disk cs).2 s.db_path) ∧
    ((cs.zip (runStoreMarks s disk cs).1).countP fun q => isPairCall t e q.1 && q.2) = 1 ∧
    ((cs.zip (runStoreMarks s disk cs).1).countP fun q => isPairCall t e q.1 && !q.2)
      = cs.countP (isPairCall t e) - 1 := by
  obtain ⟨h1, h2⟩ := runStoreMarks_eq_runMarks s hdb cs disk
  have htrue : ((cs.zip (runStoreMarks s disk cs).1).countP
      fun q => isPairCall t e q.1 && q.2) = 1 := by
    rw [h1, runMarks_trueCount t e cs (Disk.table disk s.db_path), habs]
    have h0 : 0 < cs.countP (isPairCall t e) := Nat.pos_of_ne_zero hsome
    simp only [Bool.false_eq_true, if_false]
    omega
  refine ⟨?_, htrue, ?_⟩
  · rw [h2]
    exact nodupKeys_runMarks cs (Disk.table disk s.db_path) hnd
  · have hsum := runMarks_pairSum t e cs (Disk.table disk s.db_path)
    rw [← h1] at hsum
    omega

/-- Concrete instantiation of `mark_processed_exactly_once`: three calls, two
of them for the key `("T", "1")` and one for another key, against a fresh
empty ledger: one `true`, one `false` for the target key. -/
theorem mark_processed_exactly_once_witness :
    nodupKeys (Disk.table
      (runStoreMarks { db_path := "p", db := some { running := true } } [("p", [])]
        [⟨"T", "1", "a"⟩, ⟨"X", "9", "b"⟩, ⟨"T", "1", "c"⟩]).2 "p") ∧
    (([⟨"T", "1", "a"⟩, ⟨"X", "9", "b"⟩, ⟨"T", "1", "c"⟩].zip
        (runStoreMarks { db_path := "p", db := some { running := true } } [("p", [])]
          [⟨"T", "1", "a"⟩, ⟨"X", "9", "b"⟩, ⟨"T", "1", "c"⟩]).1).countP
      fun q => isPairCall "T" "1" q.1 && q.2) = 1 ∧
    (([⟨"T", "1", "a"⟩, ⟨"X", "9", "b"⟩, ⟨"T", "1", "c"⟩].zip
        (runStoreMarks { db_path := "p", db := some { running := true } } [("p", [])]
          [⟨"T", "1", "a"⟩, ⟨"X", "9", "b"⟩, ⟨"T", "1", "c"⟩]).1).countP
      fun q => isPairCall "T" "1" q.1 && !q.2)
      = ([⟨"T", "1", "a"⟩, ⟨"X", "9", "b"⟩, ⟨"T", "1", "c"⟩] :
          List DedupRecord).countP (isPairCall "T" "1") - 1 :=
  mark_processed_exactly_once { db_path := "p", db := some { running := true } }
    [("p", [])] "T" "1" [⟨"T", "1", "a"⟩, ⟨"X", "9", "b"⟩, ⟨"T", "1", "c"⟩]
    rfl (by simp [nodupKeys, Disk.table]) rfl (by decide)
